import Mathlib

/-!
Verification of the coupon-ledger core of the discord-coupon-bot repository
(`src/database.py`), as a shallow embedding in Lean 4.

Modelling conventions:
* Timestamps are `Nat` seconds (the code uses `datetime.utcnow()`; `timedelta(hours=h)`
  is `h * 3600` seconds, `timedelta(days=d)` is `d * 86400` seconds).
* Each SQLAlchemy table is a list of rows in a `Store`; auto-increment primary keys
  are modelled by `next…Id` counters.
* Every async method of `DatabaseManager` becomes a pure function
  `Store → … → result × Store`, with `utcnow()` passed in as an explicit `now`.
* SQLite ordering semantics are modelled faithfully: in `ORDER BY col ASC`
  NULL sorts BEFORE every non-NULL value, and in `ORDER BY col DESC`
  NULL sorts AFTER every non-NULL value (NULL is the smallest value).
  `LIMIT 1` on such a query is `selectMinExpiry` / `selectMaxClaimedAt` below.
* Uncaught `IntegrityError` (a unique-constraint violation raised out of an
  operation that does not catch it) is modelled by an explicit error constructor
  in the operation's result type, with the store rolled back (unchanged).
-/

namespace CouponBot

/-- Row of the `projects` table (`class Project` in `src/database.py`). -/
structure Project where
  id : Nat
  name : String
  is_claim_active : Bool
  claim_cooldown_hours : Nat
  deriving Repr, DecidableEq

/-- Row of the `coupons` table (`class Coupon` in `src/database.py`). -/
structure Coupon where
  id : Nat
  code : String
  is_claimed : Bool
  claimed_by : Option Nat
  claimed_at : Option Nat
  expiry_date : Option Nat
  project_id : Nat
  deriving Repr, DecidableEq

/-- Row of the `bans` table (`class Ban` in `src/database.py`). -/
structure Ban where
  id : Nat
  user_id : Nat
  project_id : Option Nat
  banned_until : Option Nat
  reason : String
  deriving Repr, DecidableEq

/-- The whole SQLite database: three tables plus auto-increment counters. -/
structure Store where
  projects : List Project
  coupons : List Coupon
  bans : List Ban
  nextProjectId : Nat
  nextCouponId : Nat
  nextBanId : Nat
  deriving Repr, DecidableEq

/-- Models `select(Project).filter_by(name=…)` — name is unique, first match. -/
def getProjectByName (s : Store) (name : String) : Option Project :=
  s.projects.find? (fun p => p.name = name)

/-- SQLite comparison key for a nullable column: NULL is smaller than
every value, so `x ≤ y` holds whenever `x` is NULL. -/
def nullLe : Option Nat → Option Nat → Bool
  | none, _ => true
  | some _, none => false
  | some a, some b => a ≤ b

/-- Models `ORDER BY expiry_date ASC LIMIT 1`: the row whose `expiry_date` is minimal,
with NULL sorting first (SQLite default); ties broken by list (rowid) order. -/
def selectMinExpiry : List Coupon → Option Coupon
  | [] => none
  | c :: rest =>
    match selectMinExpiry rest with
    | none => some c
    | some d => if nullLe c.expiry_date d.expiry_date then some c else some d

/-- Models `ORDER BY claimed_at DESC LIMIT 1`: the row whose `claimed_at` is maximal,
with NULL sorting last in DESC order (NULL is smallest); ties broken by
list (rowid) order. -/
def selectMaxClaimedAt : List Coupon → Option Coupon
  | [] => none
  | c :: rest =>
    match selectMaxClaimedAt rest with
    | none => some c
    | some d => if nullLe d.claimed_at c.claimed_at then some c else some d

/-- The ban-row filter of the claim transaction:
`Ban.user_id == user_id AND (Ban.project_id == project.id OR Ban.project_id IS NULL)`. -/
def banMatch (uid pid : Nat) (b : Ban) : Bool :=
  b.user_id = uid && (b.project_id = some pid || b.project_id = none)

/-- Models `ban.banned_until is None or ban.banned_until > current_time`. -/
def banActive (now : Nat) (b : Ban) : Bool :=
  match b.banned_until with
  | none => true
  | some t => now < t

/-- The eligibility filter of the claim/stock queries:
`project_id == pid AND is_claimed == False AND (expiry_date IS NULL OR expiry_date > now)`. -/
def eligB (now pid : Nat) (c : Coupon) : Bool :=
  c.project_id = pid && !c.is_claimed &&
    (match c.expiry_date with
     | none => true
     | some d => now < d)

/-- The cooldown-history filter: `claimed_by == user_id AND project_id == pid`. -/
def historyB (uid pid : Nat) (c : Coupon) : Bool :=
  c.claimed_by = some uid && c.project_id = pid

/-! ### `claim_coupon` -/

/-- Result of `DatabaseManager.claim_coupon`. `COOLDOWN` carries the remaining
hours and minutes (the code formats them into a string) plus the previously
claimed code; `SUCCESS` carries the code and its expiry. -/
inductive ClaimResult where
  | NO_PROJECT
  | BANNED (reason : String)
  | DISABLED
  | COOLDOWN (remHours remMinutes : Nat) (prevCode : String)
  | NO_STOCK
  | SUCCESS (code : String) (expiry : Option Nat)
  deriving Repr, DecidableEq

/-- Just the tag of a `ClaimResult` (the status string the code returns). -/
inductive ClaimTag where
  | noProject | banned | disabled | cooldown | noStock | success
  deriving Repr, DecidableEq

def tagOf : ClaimResult → ClaimTag
  | .NO_PROJECT => .noProject
  | .BANNED _ => .banned
  | .DISABLED => .disabled
  | .COOLDOWN _ _ _ => .cooldown
  | .NO_STOCK => .noStock
  | .SUCCESS _ _ => .success

/-- Marks a coupon claimed: `is_claimed = True; claimed_by = uid; claimed_at = now`. -/
def markClaimed (uid now : Nat) (c : Coupon) : Coupon :=
  { c with is_claimed := true, claimed_by := some uid, claimed_at := some now }

/-- The stock/mutation tail of the claim transaction: select one eligible coupon
by `expiry_date ASC LIMIT 1`, mark it claimed, or report `NO_STOCK`. -/
def claimStock (s : Store) (now uid : Nat) (p : Project) : ClaimResult × Store :=
  match selectMinExpiry (s.coupons.filter (eligB now p.id)) with
  | none => (.NO_STOCK, s)
  | some c =>
    (.SUCCESS c.code c.expiry_date,
     { s with coupons :=
         s.coupons.map (fun x => if x.id = c.id then markClaimed uid now x else x) })

/-- Models `DatabaseManager.claim_coupon(user_id, project_name)`, one atomic
transaction (`async with session.begin()`):
project lookup, ban scan, `is_claim_active` check, cooldown check on the most
recent claim, then coupon selection and mutation. -/
def claim_coupon (s : Store) (now uid : Nat) (pname : String) : ClaimResult × Store :=
  match getProjectByName s pname with
  | none => (.NO_PROJECT, s)
  | some p =>
    match (s.bans.filter (banMatch uid p.id)).find? (banActive now) with
    | some b => (.BANNED b.reason, s)
    | none =>
      if !p.is_claim_active then (.DISABLED, s)
      else
        match selectMaxClaimedAt (s.coupons.filter (historyB uid p.id)) with
        | some lc =>
          match lc.claimed_at with
          | some t =>
            if now < t + p.claim_cooldown_hours * 3600 then
              let rem := t + p.claim_cooldown_hours * 3600 - now
              (.COOLDOWN (rem / 3600) (rem % 3600 / 60) lc.code, s)
            else claimStock s now uid p
          | none => claimStock s now uid p
        | none => claimStock s now uid p

/-! ### The other `DatabaseManager` operations -/

/-- Models `create_project(name)`: insert with defaults
(`is_claim_active=True`, `claim_cooldown_hours=168`); a unique-name
`IntegrityError` is caught, rolled back and turned into `False`. -/
def create_project (s : Store) (name : String) : Bool × Store :=
  if s.projects.any (fun p => p.name = name) then (false, s)
  else
    (true,
     { s with
         projects := s.projects ++
           [{ id := s.nextProjectId, name := name,
              is_claim_active := true, claim_cooldown_hours := 168 }],
         nextProjectId := s.nextProjectId + 1 })

/-- Models `delete_project(name)`: delete the project row; the `cascade` on the
relationships deletes its coupons and its scoped bans (global bans untouched). -/
def delete_project (s : Store) (name : String) : Bool × Store :=
  match getProjectByName s name with
  | none => (false, s)
  | some p =>
    (true,
     { s with
         projects := s.projects.filter (fun q => q.id ≠ p.id),
         coupons := s.coupons.filter (fun c => c.project_id ≠ p.id),
         bans := s.bans.filter (fun b => b.project_id ≠ some p.id) })

/-- A value passed to `set_project_setting` (the code takes an untyped `value`). -/
inductive SettingValue where
  | b (v : Bool)
  | i (v : Nat)
  | s (v : String)
  deriving Repr, DecidableEq

/-- The attribute names of the Python `Project` class that
`hasattr(Project, key)` accepts: the four mapped columns and the two
relationships. (The Python class also exposes inherited declarative
attributes; the model keeps the mapped ones, which already include
attributes outside `{is_claim_active, claim_cooldown_hours}`.) -/
def hasattrProject (key : String) : Bool :=
  key ∈ ["id", "name", "is_claim_active", "claim_cooldown_hours", "coupons", "bans"]

/-- Apply `update(Project).values({key: value})` to one row. A column is
updated when the key names it and the value has that column's type. -/
def applySetting (key : String) (v : SettingValue) (p : Project) : Project :=
  if key = "name" then
    match v with | .s x => { p with name := x } | _ => p
  else if key = "is_claim_active" then
    match v with | .b x => { p with is_claim_active := x } | _ => p
  else if key = "claim_cooldown_hours" then
    match v with | .i x => { p with claim_cooldown_hours := x } | _ => p
  else if key = "id" then
    match v with | .i x => { p with id := x } | _ => p
  else p

/-- Result of `set_project_setting`: `ret b` is the Python `bool` return;
`err` is an exception escaping (an `UPDATE` against a relationship
attribute raises and nothing is caught). -/
inductive SetResult where
  | err
  | ret (b : Bool)
  deriving Repr, DecidableEq

/-- Models `set_project_setting(project_name, key, value)`: reject keys that are not
attributes of `Project` (returning `False`), then run
`update(Project).where(Project.name == project_name).values({key: value})`
and return `rowcount > 0`. -/
def set_project_setting (s : Store) (pname key : String) (v : SettingValue) :
    SetResult × Store :=
  if !hasattrProject key then (.ret false, s)
  else if key = "coupons" || key = "bans" then (.err, s)
  else
    let n := (s.projects.filter (fun p => p.name = pname)).length
    (.ret (decide (0 < n)),
     { s with projects :=
         s.projects.map (fun p => if p.name = pname then applySetting key v p else p) })

/-- Result of `add_coupons`. `noProject` is the Python `None`;
`integrityError` is an uncaught unique-code `IntegrityError` escaping the
commit (the transaction itself rolls back, so no rows land);
`ok` carries `(inserted, duplicates, insertedCodes)`. -/
inductive AddResult where
  | noProject
  | integrityError
  | ok (inserted duplicates : Nat) (insertedCodes : List String)
  deriving Repr, DecidableEq

/-- Models `add_coupons(project_name, codes, expiry_days)`: look up the project,
collect the codes already present anywhere
(`select(Coupon.code).where(Coupon.code.in_(codes))`), skip those, and insert
the rest in one commit. `expiry_days` falsy (absent or 0) means no expiry;
otherwise all new rows share `now + expiry_days` days. The code has no
`try/except`: if the kept batch still contains a repeated code, the commit
violates the unique constraint on `code` and the `IntegrityError` escapes. -/
def add_coupons (s : Store) (now : Nat) (pname : String) (codes : List String)
    (expiryDays : Option Nat) : AddResult × Store :=
  match getProjectByName s pname with
  | none => (.noProject, s)
  | some p =>
    let existing := codes.filter (fun c => s.coupons.any (fun x => x.code = c))
    let newCodes := codes.filter (fun c => !existing.contains c)
    let expiry : Option Nat :=
      match expiryDays with
      | none => none
      | some 0 => none
      | some d => some (now + d * 86400)
    if !newCodes.Nodup then (.integrityError, s)
    else
      (.ok newCodes.length (codes.length - newCodes.length) newCodes,
       { s with
           coupons := s.coupons ++
             ((List.range newCodes.length).zip newCodes).map
               (fun ic => { id := s.nextCouponId + ic.1, code := ic.2,
                            is_claimed := false, claimed_by := none,
                            claimed_at := none, expiry_date := expiry,
                            project_id := p.id }),
           nextCouponId := s.nextCouponId + newCodes.length })

/-- Models `get_stock(project_name)`: `None` if the project is missing, else the
count of unclaimed, unexpired coupons of the project. -/
def get_stock (s : Store) (now : Nat) (pname : String) : Option Nat :=
  match getProjectByName s pname with
  | none => none
  | some p => (s.coupons.filter (eligB now p.id)).length

/-- Models `ban_user(user_id, project_name, reason, duration_hours)`: resolve the
scope (`project_name` falsy or the literal "global" means a global ban),
compute `banned_until` (`duration_hours` falsy means permanent), and upsert
the ban row keyed by `(user_id, project_id)`. -/
def ban_user (s : Store) (now uid : Nat) (pname : Option String) (reason : String)
    (durationHours : Option Nat) : Bool × Store :=
  let resolved : Option (Option Nat) :=
    match pname with
    | some n =>
      if n ≠ "" && n ≠ "global" then
        match getProjectByName s n with
        | some p => some (some p.id)
        | none => none
      else some none
    | none => some none
  match resolved with
  | none => (false, s)
  | some pid =>
    let banned_until : Option Nat :=
      match durationHours with
      | none => none
      | some 0 => none
      | some h => some (now + h * 3600)
    if s.bans.any (fun b => b.user_id = uid && b.project_id = pid) then
      (true,
       { s with bans := s.bans.map (fun b =>
           if b.user_id = uid && b.project_id = pid then
             { b with banned_until := banned_until, reason := reason }
           else b) })
    else
      (true,
       { s with
           bans := s.bans ++
             [{ id := s.nextBanId, user_id := uid, project_id := pid,
                banned_until := banned_until, reason := reason }],
           nextBanId := s.nextBanId + 1 })

/-- Models `unban_user(user_id, project_name)`: resolve the scope (a truthy
`project_name` must name an existing project; note no "global" special case
here), delete the matching row, report whether one was deleted. -/
def unban_user (s : Store) (uid : Nat) (pname : Option String) : Bool × Store :=
  let resolved : Option (Option Nat) :=
    match pname with
    | some n =>
      if n ≠ "" then
        match getProjectByName s n with
        | some p => some (some p.id)
        | none => none
      else some none
    | none => some none
  match resolved with
  | none => (false, s)
  | some pid =>
    let keep := s.bans.filter (fun b => !(b.user_id = uid && b.project_id = pid))
    (decide (keep.length < s.bans.length), { s with bans := keep })

/-- Models `cleanup_expired_coupons()`: delete every coupon with a non-null
`expiry_date ≤ now`, regardless of claim state; return the count deleted. -/
def cleanup_expired_coupons (s : Store) (now : Nat) : Nat × Store :=
  let expired := fun (c : Coupon) =>
    match c.expiry_date with
    | none => false
    | some d => d ≤ now
  ((s.coupons.filter expired).length,
   { s with coupons := s.coupons.filter (fun c => !expired c) })

/-! ## Spec-side condition predicates (§4.4 of the spec)

Each of the six states' entry condition, stated independently of the code's
control flow, so that the first-match cascade can be compared against the
implementation. -/

/-- Spec condition *Banned*: some global or project-scoped ban row of the
user is active at `now`. -/
def condBanned (s : Store) (now uid pid : Nat) : Bool :=
  (s.bans.filter (banMatch uid pid)).any (banActive now)

/-- Spec condition *Cooldown*: the user's most recent claim in the project
(by `claimed_at` descending) plus `claim_cooldown_hours` is still in the
future. -/
def condCooldown (s : Store) (now uid : Nat) (p : Project) : Bool :=
  match selectMaxClaimedAt (s.coupons.filter (historyB uid p.id)) with
  | some lc =>
    match lc.claimed_at with
    | some t => decide (now < t + p.claim_cooldown_hours * 3600)
    | none => false
  | none => false

/-- Spec condition *NoStock*: no coupon of the project is unclaimed and
unexpired. -/
def condNoStock (s : Store) (now pid : Nat) : Bool :=
  (s.coupons.filter (eligB now pid)).isEmpty

/-- The spec's claim state machine: the six states evaluated strictly in the
order NoProject, Banned, Disabled, Cooldown, NoStock, Success — first match
wins. -/
def claimTagSpec (s : Store) (now uid : Nat) (pname : String) : ClaimTag :=
  match getProjectByName s pname with
  | none => .noProject
  | some p =>
    if condBanned s now uid p.id then .banned
    else if !p.is_claim_active then .disabled
    else if condCooldown s now uid p then .cooldown
    else if condNoStock s now p.id then .noStock
    else .success

theorem selectMinExpiry_ne_none (c : Coupon) (rest : List Coupon) :
    selectMinExpiry (c :: rest) ≠ none := by
  unfold selectMinExpiry
  cases selectMinExpiry rest with
  | none => simp
  | some d => by_cases h : nullLe c.expiry_date d.expiry_date = true <;> simp [h]

theorem tagOf_claimStock (s : Store) (now uid : Nat) (p : Project) :
    tagOf (claimStock s now uid p).1 =
      (if condNoStock s now p.id then ClaimTag.noStock else ClaimTag.success) := by
  unfold claimStock condNoStock
  cases hl : s.coupons.filter (eligB now p.id) with
  | nil => simp [selectMinExpiry, tagOf]
  | cons c rest =>
    cases hm : selectMinExpiry (c :: rest) with
    | none => exact absurd hm (selectMinExpiry_ne_none c rest)
    | some d => simp [tagOf]

/-- The claim transaction's tag agrees with the spec's first-match cascade. -/
theorem tagOf_claim_coupon (s : Store) (now uid : Nat) (pname : String) :
    tagOf (claim_coupon s now uid pname).1 = claimTagSpec s now uid pname := by
  unfold claim_coupon claimTagSpec
  cases hp : getProjectByName s pname with
  | none => rfl
  | some p =>
    simp only
    cases hf : (s.bans.filter (banMatch uid p.id)).find? (banActive now) with
    | some b =>
      have hcb : condBanned s now uid p.id = true := by
        unfold condBanned
        rw [List.any_eq_true]
        exact ⟨b, List.mem_of_find?_eq_some hf, List.find?_some hf⟩
      simp [hcb, tagOf]
    | none =>
      have hcb : condBanned s now uid p.id = false := by
        unfold condBanned
        rw [List.any_eq_false]
        intro x hx
        exact List.find?_eq_none.mp hf x hx
      rw [hcb]
      simp only [if_false, Bool.false_eq_true]
      by_cases ha : p.is_claim_active = true
      · simp only [ha, Bool.not_true, Bool.false_eq_true, if_false]
        unfold condCooldown
        cases hlc : selectMaxClaimedAt (s.coupons.filter (historyB uid p.id)) with
        | none => simpa using tagOf_claimStock s now uid p
        | some lc =>
          cases hca : lc.claimed_at with
          | none =>
            dsimp only
            rw [hca]
            simpa using tagOf_claimStock s now uid p
          | some t =>
            dsimp only
            rw [hca]
            by_cases ht : now < t + p.claim_cooldown_hours * 3600
            · simp [ht, tagOf]
            · simpa [ht] using tagOf_claimStock s now uid p
      · have ha' : p.is_claim_active = false := by
          cases h : p.is_claim_active
          · rfl
          · exact absurd h ha
        simp [ha', tagOf]

/-- C1. A claim attempt evaluates the six states strictly in the order
NoProject, Banned, Disabled, Cooldown, NoStock, Success and returns the
outcome of the first condition that matches: the tag of `claim_coupon`
equals the first-match cascade `claimTagSpec` of the independently stated
conditions (so, in particular, an actively banned user receives BANNED even
when the project is also disabled, in cooldown for them, or out of stock). -/
theorem claim_first_match (s : Store) (now uid : Nat) (pname : String) :
    tagOf (claim_coupon s now uid pname).1 = claimTagSpec s now uid pname :=
  tagOf_claim_coupon s now uid pname

/-! ### Properties of the SQLite `ORDER BY … LIMIT 1` selections -/

theorem nullLe_refl (a : Option Nat) : nullLe a a = true := by
  cases a <;> simp [nullLe]

theorem nullLe_trans {a b c : Option Nat} (h1 : nullLe a b = true)
    (h2 : nullLe b c = true) : nullLe a c = true := by
  cases a <;> cases b <;> cases c <;> (simp_all [nullLe]; try omega)

theorem nullLe_total (a b : Option Nat) : nullLe a b = true ∨ nullLe b a = true := by
  cases a <;> cases b <;> (simp [nullLe]; try omega)

theorem selectMinExpiry_eq_none_iff {l : List Coupon} :
    selectMinExpiry l = none ↔ l = [] := by
  cases l with
  | nil => simp [selectMinExpiry]
  | cons c rest => simpa using selectMinExpiry_ne_none c rest

/-- The coupon returned by `ORDER BY expiry_date ASC LIMIT 1` belongs to the
candidate rows and its `expiry_date` is minimal under the SQLite order
(NULL first, then ascending). -/
theorem selectMinExpiry_spec {l : List Coupon} {c : Coupon}
    (h : selectMinExpiry l = some c) :
    c ∈ l ∧ ∀ x ∈ l, nullLe c.expiry_date x.expiry_date = true := by
  induction l generalizing c with
  | nil => simp [selectMinExpiry] at h
  | cons a rest ih =>
    rw [selectMinExpiry] at h
    cases hr : selectMinExpiry rest with
    | none =>
      rw [hr] at h
      obtain rfl : a = c := by simpa using h
      have : rest = [] := selectMinExpiry_eq_none_iff.mp hr
      subst this
      exact ⟨List.mem_singleton.mpr rfl, by
        intro x hx
        obtain rfl : x = a := by simpa using hx
        exact nullLe_refl _⟩
    | some d =>
      rw [hr] at h
      dsimp only at h
      obtain ⟨hd, hmin⟩ := ih hr
      by_cases hle : nullLe a.expiry_date d.expiry_date = true
      · rw [if_pos hle] at h
        obtain rfl : a = c := by simpa using h
        refine ⟨List.mem_cons_self a rest, ?_⟩
        intro x hx
        rcases List.mem_cons.mp hx with rfl | hx
        · exact nullLe_refl _
        · exact nullLe_trans hle (hmin x hx)
      · rw [if_neg hle] at h
        obtain rfl : d = c := by simpa using h
        refine ⟨List.mem_cons_of_mem a hd, ?_⟩
        intro x hx
        rcases List.mem_cons.mp hx with rfl | hx
        · rcases nullLe_total d.expiry_date x.expiry_date with h' | h'
          · exact h'
          · exact absurd h' hle
        · exact hmin x hx

theorem selectMaxClaimedAt_eq_none_iff {l : List Coupon} :
    selectMaxClaimedAt l = none ↔ l = [] := by
  cases l with
  | nil => simp [selectMaxClaimedAt]
  | cons c rest =>
    rw [selectMaxClaimedAt]
    cases selectMaxClaimedAt rest with
    | none => simp
    | some d => by_cases h : nullLe d.claimed_at c.claimed_at = true <;> simp [h]

/-! ### Inversion helpers for the claim transaction -/

/-- When no matching ban row is active, the ban scan finds nothing. -/
theorem find?_banActive_eq_none {s : Store} {now uid pid : Nat}
    (h : condBanned s now uid pid = false) :
    (s.bans.filter (banMatch uid pid)).find? (banActive now) = none := by
  rw [List.find?_eq_none]
  intro x hx
  unfold condBanned at h
  exact List.any_eq_false.mp h x hx

/-- When the user is not banned, the project is active and the user has no
claim history in the project, the claim transaction reaches the stock
selection stage unchanged. -/
theorem claim_eq_claimStock {s : Store} {now uid : Nat} {pname : String} {p : Project}
    (hp : getProjectByName s pname = some p)
    (hnb : condBanned s now uid p.id = false)
    (hact : p.is_claim_active = true)
    (hnh : s.coupons.filter (historyB uid p.id) = []) :
    claim_coupon s now uid pname = claimStock s now uid p := by
  unfold claim_coupon
  rw [hp]
  dsimp only
  rw [find?_banActive_eq_none hnb, hnh, hact]
  simp [selectMaxClaimedAt]

/-- Inversion: a claim that reports SUCCESS went through the eligible-coupon
selection and its only mutation is marking that coupon claimed. -/
theorem claim_success_inv {s : Store} {now uid : Nat} {pname : String}
    {code : String} {exp : Option Nat} {s₂ : Store}
    (h : claim_coupon s now uid pname = (.SUCCESS code exp, s₂)) :
    ∃ p, getProjectByName s pname = some p ∧
      ∃ c, selectMinExpiry (s.coupons.filter (eligB now p.id)) = some c ∧
        code = c.code ∧ exp = c.expiry_date ∧
        s₂ = { s with coupons :=
          s.coupons.map (fun x => if x.id = c.id then markClaimed uid now x else x) } := by
  unfold claim_coupon at h
  cases hp : getProjectByName s pname with
  | none => rw [hp] at h; exact absurd h (by simp)
  | some p =>
    rw [hp] at h
    refine ⟨p, rfl, ?_⟩
    dsimp only at h
    cases hf : (s.bans.filter (banMatch uid p.id)).find? (banActive now) with
    | some b => rw [hf] at h; exact absurd h (by simp)
    | none =>
      rw [hf] at h
      by_cases hact : p.is_claim_active = true
      case neg =>
        have : (!p.is_claim_active) = true := by
          cases hv : p.is_claim_active
          · rfl
          · exact absurd hv hact
        rw [if_pos this] at h
        exact absurd h (by simp)
      case pos =>
        rw [hact] at h
        simp only [Bool.not_true, Bool.false_eq_true, if_false] at h
        have hstock : claimStock s now uid p = (.SUCCESS code exp, s₂) := by
          cases hlc : selectMaxClaimedAt (s.coupons.filter (historyB uid p.id)) with
          | none => rwa [hlc] at h
          | some lc =>
            rw [hlc] at h
            dsimp only at h
            cases hca : lc.claimed_at with
            | none => rwa [hca] at h
            | some t =>
              rw [hca] at h
              dsimp only at h
              by_cases ht : now < t + p.claim_cooldown_hours * 3600
              · rw [if_pos ht] at h; exact absurd h (by simp)
              · rwa [if_neg ht] at h
        unfold claimStock at hstock
        cases hm : selectMinExpiry (s.coupons.filter (eligB now p.id)) with
        | none => rw [hm] at hstock; exact absurd hstock (by simp)
        | some c =>
          rw [hm] at hstock
          have h1 := congrArg Prod.fst hstock
          have h2 := congrArg Prod.snd hstock
          simp only at h1 h2
          injection h1 with hc he
          exact ⟨c, rfl, hc.symm, he.symm, h2.symm⟩
/-! ### Example fixtures used by witnesses and counterexamples -/

/-- An active project with the default cooldown (168 h). -/
def exP : Project :=
  { id := 1, name := "p", is_claim_active := true, claim_cooldown_hours := 168 }

/-- A store holding just the project `exP` and nothing else. -/
def exStore0 : Store :=
  { projects := [exP], coupons := [], bans := [],
    nextProjectId := 2, nextCouponId := 1, nextBanId := 1 }

/-- The store `exStore0` plus a global ban of user 7 until time 100. -/
def exBanStore : Store :=
  { exStore0 with
      bans := [{ id := 1, user_id := 7, project_id := none,
                 banned_until := some 100, reason := "r" }],
      nextBanId := 2 }

/-- C6. With the project resolved, the claim reports BANNED exactly when some
ban row of the user that is either scoped to this project or global
(`project_id` null) is active at `now` — its `banned_until` is null or in the
future; a ban whose `banned_until` lies in the past blocks nothing. -/
theorem claim_banned_iff (s : Store) (now uid : Nat) (pname : String) (p : Project)
    (hp : getProjectByName s pname = some p) :
    (tagOf (claim_coupon s now uid pname).1 = .banned ↔
      ∃ b ∈ s.bans, b.user_id = uid ∧
        (b.project_id = some p.id ∨ b.project_id = none) ∧
        (b.banned_until = none ∨ ∃ t, b.banned_until = some t ∧ now < t)) := by
  rw [tagOf_claim_coupon]
  unfold claimTagSpec
  rw [hp]
  dsimp only
  have key : condBanned s now uid p.id = true ↔
      ∃ b ∈ s.bans, b.user_id = uid ∧
        (b.project_id = some p.id ∨ b.project_id = none) ∧
        (b.banned_until = none ∨ ∃ t, b.banned_until = some t ∧ now < t) := by
    unfold condBanned
    rw [List.any_eq_true]
    constructor
    · rintro ⟨b, hb, hbact⟩
      obtain ⟨hbm, hmatch⟩ := List.mem_filter.mp hb
      have hmatch' : b.user_id = uid ∧ (b.project_id = some p.id ∨ b.project_id = none) := by
        simpa [banMatch] using hmatch
      refine ⟨b, hbm, hmatch'.1, hmatch'.2, ?_⟩
      cases hbu : b.banned_until with
      | none => exact Or.inl rfl
      | some t =>
        refine Or.inr ⟨t, rfl, ?_⟩
        unfold banActive at hbact
        rw [hbu] at hbact
        simpa using hbact
    · rintro ⟨b, hb, h1, h2, h3⟩
      refine ⟨b, List.mem_filter.mpr ⟨hb, ?_⟩, ?_⟩
      · simp [banMatch, h1, h2]
      · unfold banActive
        rcases h3 with h3 | ⟨t, h3, h4⟩
        · rw [h3]
        · rw [h3]; simpa using h4
  by_cases hcb : condBanned s now uid p.id = true
  · rw [if_pos hcb]
    exact ⟨fun _ => key.mp hcb, fun _ => rfl⟩
  · rw [if_neg hcb]
    constructor
    · intro h
      exfalso
      by_cases h1 : (!p.is_claim_active) = true
      · rw [if_pos h1] at h
        exact absurd h (by simp)
      · rw [if_neg h1] at h
        by_cases h2 : condCooldown s now uid p = true
        · rw [if_pos h2] at h
          exact absurd h (by simp)
        · rw [if_neg h2] at h
          by_cases h3 : condNoStock s now p.id = true
          · rw [if_pos h3] at h
            exact absurd h (by simp)
          · rw [if_neg h3] at h
            exact absurd h (by simp)
    · intro hex
      exact absurd (key.mpr hex) hcb

theorem claim_banned_iff_witness :
    getProjectByName exBanStore "p" = some exP ∧
    (tagOf (claim_coupon exBanStore 5 7 "p").1 = .banned ↔
      ∃ b ∈ exBanStore.bans, b.user_id = 7 ∧
        (b.project_id = some exP.id ∨ b.project_id = none) ∧
        (b.banned_until = none ∨ ∃ t, b.banned_until = some t ∧ 5 < t)) :=
  ⟨rfl, claim_banned_iff exBanStore 5 7 "p" exP rfl⟩

/-- C7. If the user's most recent claimed coupon in the project (by
`claimed_at` descending) has `claimed_at + claim_cooldown_hours` still in the
future, the claim returns COOLDOWN with the remaining duration (hours and
minutes) and the previously claimed code, leaving the store unchanged; once
the cooldown has elapsed, the claim is no longer blocked by the cooldown
check and proceeds to the stock stage. -/
theorem claim_cooldown_spec (s : Store) (now uid : Nat) (pname : String) (p : Project)
    (lc : Coupon) (t : Nat)
    (hp : getProjectByName s pname = some p)
    (hnb : condBanned s now uid p.id = false)
    (hact : p.is_claim_active = true)
    (hlc : selectMaxClaimedAt (s.coupons.filter (historyB uid p.id)) = some lc)
    (hca : lc.claimed_at = some t) :
    (now < t + p.claim_cooldown_hours * 3600 →
      claim_coupon s now uid pname =
        (.COOLDOWN ((t + p.claim_cooldown_hours * 3600 - now) / 3600)
          ((t + p.claim_cooldown_hours * 3600 - now) % 3600 / 60) lc.code, s))
    ∧ (t + p.claim_cooldown_hours * 3600 ≤ now →
      claim_coupon s now uid pname = claimStock s now uid p) := by
  unfold claim_coupon
  rw [hp]
  dsimp only
  rw [find?_banActive_eq_none hnb]
  dsimp only
  have hactb : ¬((!p.is_claim_active) = true) := by simp [hact]
  rw [if_neg hactb, hlc]
  dsimp only
  rw [hca]
  dsimp only
  constructor
  · intro h
    rw [if_pos h]
  · intro h
    rw [if_neg (by omega)]

/-- The store `exStore0` plus a coupon already claimed by user 7 at time 0 and one in
stock. -/
def exCooldownStore : Store :=
  { exStore0 with
      coupons :=
        [{ id := 1, code := "X", is_claimed := true, claimed_by := some 7,
           claimed_at := some 0, expiry_date := none, project_id := 1 },
         { id := 2, code := "Z", is_claimed := false, claimed_by := none,
           claimed_at := none, expiry_date := none, project_id := 1 }],
      nextCouponId := 3 }

theorem claim_cooldown_spec_witness :
    (5 < 0 + 168 * 3600 →
      claim_coupon exCooldownStore 5 7 "p" =
        (.COOLDOWN ((0 + 168 * 3600 - 5) / 3600) ((0 + 168 * 3600 - 5) % 3600 / 60) "X",
         exCooldownStore))
    ∧ (0 + 168 * 3600 ≤ 5 →
      claim_coupon exCooldownStore 5 7 "p" = claimStock exCooldownStore 5 7 exP) :=
  claim_cooldown_spec exCooldownStore 5 7 "p" exP
    { id := 1, code := "X", is_claimed := true, claimed_by := some 7,
      claimed_at := some 0, expiry_date := none, project_id := 1 } 0
    rfl rfl rfl rfl rfl

/-! ### C4 — coupon selection order -/

/-- The store `exStore0` plus two eligible coupons: "X" expiring at 100 and "Y" with no
expiry. -/
def exNullsStore : Store :=
  { exStore0 with
      coupons :=
        [{ id := 1, code := "X", is_claimed := false, claimed_by := none,
           claimed_at := none, expiry_date := some 100, project_id := 1 },
         { id := 2, code := "Y", is_claimed := false, claimed_by := none,
           claimed_at := none, expiry_date := none, project_id := 1 }],
      nextCouponId := 3 }

/-- C4 counterexample. In a project holding an eligible coupon with a non-null
`expiry_date` (code "X", expiring at 100) and an eligible coupon with null
`expiry_date` (code "Y"), the claim hands out the null-expiry coupon "Y":
SQLite's `ORDER BY expiry_date ASC` sorts NULL first, not last, so a
null-expiry coupon is chosen even though an eligible dated coupon exists. -/
theorem claim_nulls_first_cex :
    exNullsStore.coupons.any (fun c => eligB 0 exP.id c && c.expiry_date.isSome) = true ∧
    (claim_coupon exNullsStore 0 7 "p").1 = .SUCCESS "Y" none :=
  ⟨rfl, rfl⟩

/-- C4 (amended). When a claim reaches SUCCESS, the coupon it hands out is
eligible and minimal among the project's eligible coupons under the order
"expiry_date ascending with nulls FIRST" (`nullLe`): a coupon with null
`expiry_date` is chosen before any dated coupon, and among dated coupons the
soonest-to-expire is chosen. -/
theorem claim_success_min_expiry (s : Store) (now uid : Nat) (pname code : String)
    (exp : Option Nat) (s₂ : Store) (p : Project)
    (h : claim_coupon s now uid pname = (.SUCCESS code exp, s₂))
    (hp : getProjectByName s pname = some p) :
    ∃ c ∈ s.coupons, eligB now p.id c = true ∧ c.code = code ∧ c.expiry_date = exp ∧
      ∀ x ∈ s.coupons, eligB now p.id x = true →
        nullLe c.expiry_date x.expiry_date = true := by
  obtain ⟨p', hp', c, hmin, hcode, hexp, _⟩ := claim_success_inv h
  rw [hp] at hp'
  injection hp' with hpp
  subst hpp
  obtain ⟨hmem, hminall⟩ := selectMinExpiry_spec hmin
  obtain ⟨hcm, hce⟩ := List.mem_filter.mp hmem
  exact ⟨c, hcm, hce, hcode.symm, hexp.symm, fun x hx hex =>
    hminall x (List.mem_filter.mpr ⟨hx, hex⟩)⟩

/-- The store `exStore0` plus a single unclaimed coupon "K" with no expiry. -/
def exStockStore : Store :=
  { exStore0 with
      coupons := [{ id := 1, code := "K", is_claimed := false, claimed_by := none,
                    claimed_at := none, expiry_date := none, project_id := 1 }],
      nextCouponId := 2 }

theorem claim_success_min_expiry_witness :
    ∃ c ∈ exStockStore.coupons, eligB 5 exP.id c = true ∧ c.code = "K" ∧
      c.expiry_date = none ∧
      ∀ x ∈ exStockStore.coupons, eligB 5 exP.id x = true →
        nullLe c.expiry_date x.expiry_date = true :=
  claim_success_min_expiry exStockStore 5 7 "p" "K" none
    (claim_coupon exStockStore 5 7 "p").2 exP rfl rfl

/-! ### C5 / C9 — duplicate handling in `add_coupons` and `create_project` -/

/-- The store after successfully adding codes "A" and "B" to project "p". -/
def exABStore : Store := (add_coupons exStore0 0 "p" ["A", "B"] none).2

/-- C5: the code's behaviour at the spec's own test input. Submitting
`["A","B","A"]` to an empty project does NOT return inserted=2/duplicates=1:
the dedup query only checks codes already present in the store, so both
copies of "A" stay in the batch and the commit dies on the unique-code
constraint with an uncaught `IntegrityError` (no rows inserted). Dedup
against stored codes works: re-adding `["A","C"]` after "A" and "B" exist
returns inserted=1, duplicates=1. -/
theorem add_coupons_intra_batch_dup :
    add_coupons exStore0 0 "p" ["A", "B", "A"] none = (.integrityError, exStore0) ∧
    (add_coupons exABStore 0 "p" ["A", "C"] none).1 = .ok 1 1 ["C"] :=
  ⟨rfl, rfl⟩

/-- C9: the code's behaviour at the failing input. `create_project` does
catch the unique-name collision, translating it to a `False` return with the
transaction rolled back; but `add_coupons` has no `try/except`, so a
unique-code collision arising from a duplicate within the submitted batch
escapes as an uncaught `IntegrityError` — the batch inserts nothing
(all-or-nothing holds), yet the exception is not translated into the
returned value. -/
theorem create_project_catches_add_coupons_throws :
    create_project exStore0 "p" = (false, exStore0) ∧
    add_coupons exStore0 0 "p" ["D", "D"] none = (.integrityError, exStore0) :=
  ⟨rfl, rfl⟩

/-! ### C8 — `set_project_setting` -/

/-- C8 counterexample. "name" is not one of
`{is_claim_active, claim_cooldown_hours}`, yet `set_project_setting` accepts
it (the code only checks `hasattr(Project, key)`), updates the project's name
and returns `True` instead of failing with `InvalidKey`. -/
theorem set_setting_invalid_key_cex :
    ("name" ∉ (["is_claim_active", "claim_cooldown_hours"] : List String)) ∧
    set_project_setting exStore0 "p" "name" (.s "q") =
      (.ret true, { exStore0 with projects := [{ exP with name := "q" }] }) :=
  ⟨by decide, rfl⟩

/-- C8 (amended). `set_project_setting` returns `False` for any key that is
not an attribute of the `Project` class and leaves the store unchanged; a
missing project name also yields `False`; for the two setting keys it
updates exactly that field of exactly the projects with that name, leaving
every other field, every other project row, and the coupon and ban tables
unchanged. (Contrary to the claim, other attribute keys such as "name" are
accepted too — see the counterexample.) -/
theorem set_setting_two_keys_exact (s : Store) (pname : String) (key : String)
    (v : SettingValue)
    (hk : key = "is_claim_active" ∨ key = "claim_cooldown_hours") :
    ((set_project_setting s pname key v).1 = .ret true ↔
      ∃ p ∈ s.projects, p.name = pname)
    ∧ (set_project_setting s pname key v).2.coupons = s.coupons
    ∧ (set_project_setting s pname key v).2.bans = s.bans
    ∧ (set_project_setting s pname key v).2.projects =
        s.projects.map (fun p => if p.name = pname then applySetting key v p else p)
    ∧ (∀ p : Project,
        (key = "is_claim_active" → ∀ x, v = .b x →
          applySetting key v p = { p with is_claim_active := x })
        ∧ (key = "claim_cooldown_hours" → ∀ x, v = .i x →
          applySetting key v p = { p with claim_cooldown_hours := x }))
    ∧ (∀ k', hasattrProject k' = false →
        set_project_setting s pname k' v = (.ret false, s)) := by
  have main : ∀ hattr : hasattrProject key = true,
      ∀ hrel : (key = "coupons" || key = "bans") = false,
      ((set_project_setting s pname key v).1 = .ret true ↔
        ∃ p ∈ s.projects, p.name = pname)
      ∧ (set_project_setting s pname key v).2.coupons = s.coupons
      ∧ (set_project_setting s pname key v).2.bans = s.bans
      ∧ (set_project_setting s pname key v).2.projects =
          s.projects.map (fun p => if p.name = pname then applySetting key v p else p) := by
    intro hattr hrel
    unfold set_project_setting
    rw [hattr]
    have hrel' : ¬((key = "coupons" || key = "bans") = true) := by simp [hrel]
    rw [if_neg (by simp), if_neg hrel']
    refine ⟨?_, rfl, rfl, rfl⟩
    constructor
    · intro hr
      have : decide (0 < (s.projects.filter (fun p => p.name = pname)).length) = true := by
        injection hr
      have hpos : 0 < (s.projects.filter (fun p => p.name = pname)).length :=
        of_decide_eq_true this
      rw [List.length_pos, Ne, List.filter_eq_nil_iff] at hpos
      push_neg at hpos
      simpa using hpos
    · intro ⟨p, hp, hpn⟩
      have hpos : 0 < (s.projects.filter (fun q => q.name = pname)).length := by
        rw [List.length_pos, Ne, List.filter_eq_nil_iff]
        push_neg
        exact ⟨p, hp, by simp [hpn]⟩
      simp [hpos]
  rcases hk with rfl | rfl
  · refine ⟨?_, ?_, ?_, ?_, ?_, ?_⟩
    case _ => exact (main rfl rfl).1
    case _ => exact (main rfl rfl).2.1
    case _ => exact (main rfl rfl).2.2.1
    case _ => exact (main rfl rfl).2.2.2
    case _ =>
      intro p
      refine ⟨?_, ?_⟩
      · rintro _ x rfl
        rfl
      · intro h
        exact absurd h (by decide)
    case _ =>
      intro k' hk'
      unfold set_project_setting
      rw [hk']
      rfl
  · refine ⟨?_, ?_, ?_, ?_, ?_, ?_⟩
    case _ => exact (main rfl rfl).1
    case _ => exact (main rfl rfl).2.1
    case _ => exact (main rfl rfl).2.2.1
    case _ => exact (main rfl rfl).2.2.2
    case _ =>
      intro p
      refine ⟨?_, ?_⟩
      · intro h
        exact absurd h (by decide)
      · rintro _ x rfl
        rfl
    case _ =>
      intro k' hk'
      unfold set_project_setting
      rw [hk']
      rfl

theorem set_setting_two_keys_exact_witness :
    (((set_project_setting exStore0 "p" "claim_cooldown_hours" (.i 24)).1 = .ret true ↔
      ∃ p ∈ exStore0.projects, p.name = "p")
    ∧ (set_project_setting exStore0 "p" "claim_cooldown_hours" (.i 24)).2.coupons =
        exStore0.coupons
    ∧ (set_project_setting exStore0 "p" "claim_cooldown_hours" (.i 24)).2.bans =
        exStore0.bans
    ∧ (set_project_setting exStore0 "p" "claim_cooldown_hours" (.i 24)).2.projects =
        exStore0.projects.map (fun p => if p.name = "p" then
          applySetting "claim_cooldown_hours" (.i 24) p else p)
    ∧ (∀ p : Project,
        ("claim_cooldown_hours" = "is_claim_active" → ∀ x, SettingValue.i 24 = .b x →
          applySetting "claim_cooldown_hours" (.i 24) p = { p with is_claim_active := x })
        ∧ ("claim_cooldown_hours" = "claim_cooldown_hours" → ∀ x, SettingValue.i 24 = .i x →
          applySetting "claim_cooldown_hours" (.i 24) p = { p with claim_cooldown_hours := x }))
    ∧ (∀ k', hasattrProject k' = false →
        set_project_setting exStore0 "p" k' (.i 24) = (.ret false, exStore0))) :=
  set_setting_two_keys_exact exStore0 "p" "claim_cooldown_hours" (.i 24) (Or.inr rfl)

/-! ### C10 — cleanup erases cooldown history -/

/-- The store `exStore0` plus user 7's older claim "X" (claimed at 0, no expiry), their
most recent claim "Y" (claimed at 10, expiring at 20) and one coupon "Z" in
stock. -/
def exHistStore : Store :=
  { exStore0 with
      coupons :=
        [{ id := 1, code := "X", is_claimed := true, claimed_by := some 7,
           claimed_at := some 0, expiry_date := none, project_id := 1 },
         { id := 2, code := "Y", is_claimed := true, claimed_by := some 7,
           claimed_at := some 10, expiry_date := some 20, project_id := 1 },
         { id := 3, code := "Z", is_claimed := false, claimed_by := none,
           claimed_at := none, expiry_date := none, project_id := 1 }],
      nextCouponId := 4 }

/-- C10 counterexample. User 7's most recent claimed coupon in the project is
"Y" (claimed at 10) with `expiry_date` 20 ≤ 30, and `cleanup_expired_coupons`
at time 30 deletes exactly it; stock remains available, and 10 + 168 h is
still in the future at time 30 — yet the next claim is STILL blocked by the
Cooldown check, because the cooldown query now finds the user's older
remaining claimed coupon "X" (claimed at 0, also within the cooldown
window). The claim's unconditional "not blocked by the Cooldown check" is
therefore false. -/
theorem cleanup_cooldown_cex :
    selectMaxClaimedAt (exHistStore.coupons.filter (historyB 7 exP.id)) =
      some { id := 2, code := "Y", is_claimed := true, claimed_by := some 7,
             claimed_at := some 10, expiry_date := some 20, project_id := 1 } ∧
    (cleanup_expired_coupons exHistStore 30).1 = 1 ∧
    get_stock (cleanup_expired_coupons exHistStore 30).2 30 "p" = some 1 ∧
    tagOf (claim_coupon (cleanup_expired_coupons exHistStore 30).2 30 7 "p").1 =
      .cooldown :=
  ⟨rfl, rfl, rfl, rfl⟩

/-- C10 (amended). Cooldown history is stored only on coupon rows, so if ALL
coupons the user has claimed in the project are expired at `now`, running
`cleanup_expired_coupons` deletes them and the user's next claim finds no
claim history: the Cooldown check cannot block it and (when the user is not
banned and the project is active) the claim proceeds to NoStock/Success. The
restriction to all of the user's claimed rows — not just the most recent —
is forced by the counterexample: an older unexpired claimed row still blocks. -/
theorem cleanup_clears_cooldown (s : Store) (now uid : Nat) (pname : String) (p : Project)
    (hp : getProjectByName s pname = some p)
    (hall : ∀ c ∈ s.coupons, c.claimed_by = some uid → c.project_id = p.id →
      ∃ d, c.expiry_date = some d ∧ d ≤ now)
    (hnb : condBanned s now uid p.id = false)
    (hact : p.is_claim_active = true) :
    ((cleanup_expired_coupons s now).2.coupons.filter (historyB uid p.id) = []) ∧
    (tagOf (claim_coupon (cleanup_expired_coupons s now).2 now uid pname).1 =
        .noStock ∨
     tagOf (claim_coupon (cleanup_expired_coupons s now).2 now uid pname).1 =
        .success) := by
  have hcoup : (cleanup_expired_coupons s now).2.coupons =
      s.coupons.filter (fun c =>
        !(match c.expiry_date with
          | none => false
          | some d => decide (d ≤ now))) := rfl
  have hnh : (cleanup_expired_coupons s now).2.coupons.filter (historyB uid p.id) = [] := by
    rw [hcoup]
    rw [List.filter_eq_nil_iff]
    intro c hc
    obtain ⟨hcm, hkeep⟩ := List.mem_filter.mp hc
    intro hhist
    have hh : c.claimed_by = some uid ∧ c.project_id = p.id := by
      simpa [historyB] using hhist
    obtain ⟨d, hd, hdle⟩ := hall c hcm hh.1 hh.2
    rw [hd] at hkeep
    simp at hkeep
    omega
  refine ⟨hnh, ?_⟩
  have hp' : getProjectByName (cleanup_expired_coupons s now).2 pname = some p := hp
  have hnb' : condBanned (cleanup_expired_coupons s now).2 now uid p.id = false := hnb
  rw [claim_eq_claimStock hp' hnb' hact hnh]
  rw [tagOf_claimStock]
  by_cases hns : condNoStock (cleanup_expired_coupons s now).2 now p.id = true
  · rw [if_pos hns]
    exact Or.inl rfl
  · rw [if_neg hns]
    exact Or.inr rfl

/-- The store `exStore0` plus user 7's single claimed coupon "Y" (claimed at 10,
expiring at 20) and one coupon "Z" in stock. -/
def exHist1Store : Store :=
  { exStore0 with
      coupons :=
        [{ id := 2, code := "Y", is_claimed := true, claimed_by := some 7,
           claimed_at := some 10, expiry_date := some 20, project_id := 1 },
         { id := 3, code := "Z", is_claimed := false, claimed_by := none,
           claimed_at := none, expiry_date := none, project_id := 1 }],
      nextCouponId := 4 }

theorem cleanup_clears_cooldown_witness :
    ((cleanup_expired_coupons exHist1Store 30).2.coupons.filter (historyB 7 exP.id) = []) ∧
    (tagOf (claim_coupon (cleanup_expired_coupons exHist1Store 30).2 30 7 "p").1 =
        .noStock ∨
     tagOf (claim_coupon (cleanup_expired_coupons exHist1Store 30).2 30 7 "p").1 =
        .success) :=
  cleanup_clears_cooldown exHist1Store 30 7 "p" exP rfl
    (by
      intro c hc h1 h2
      simp only [exHist1Store, exStore0, List.mem_cons, List.not_mem_nil, or_false] at hc
      rcases hc with rfl | rfl
      · exact ⟨20, rfl, by omega⟩
      · exact absurd h1 (by simp))
    rfl rfl

/-! ### C3 — a coupon never reverts from claimed -/

/-- One public mutating operation of the ledger (`DatabaseManager`). -/
inductive Op where
  | createProject (name : String)
  | deleteProject (name : String)
  | setProjectSetting (pname key : String) (v : SettingValue)
  | banUser (uid : Nat) (pname : Option String) (reason : String)
      (durationHours : Option Nat)
  | unbanUser (uid : Nat) (pname : Option String)
  | addCoupons (pname : String) (codes : List String) (expiryDays : Option Nat)
  | claimCoupon (uid : Nat) (pname : String)
  | cleanupExpired

/-- The store after running one ledger operation at time `now`. -/
def applyOp (now : Nat) (op : Op) (s : Store) : Store :=
  match op with
  | .createProject n => (create_project s n).2
  | .deleteProject n => (delete_project s n).2
  | .setProjectSetting pn k v => (set_project_setting s pn k v).2
  | .banUser uid pn r d => (ban_user s now uid pn r d).2
  | .unbanUser uid pn => (unban_user s uid pn).2
  | .addCoupons pn cs e => (add_coupons s now pn cs e).2
  | .claimCoupon uid pn => (claim_coupon s now uid pn).2
  | .cleanupExpired => (cleanup_expired_coupons s now).2

theorem create_project_coupons (s : Store) (n : String) :
    (create_project s n).2.coupons = s.coupons := by
  unfold create_project
  split <;> rfl

theorem set_project_setting_coupons (s : Store) (pn k : String) (v : SettingValue) :
    (set_project_setting s pn k v).2.coupons = s.coupons := by
  unfold set_project_setting
  split
  · rfl
  · split <;> rfl

theorem ban_user_coupons (s : Store) (now uid : Nat) (pn : Option String)
    (r : String) (d : Option Nat) :
    (ban_user s now uid pn r d).2.coupons = s.coupons := by
  unfold ban_user
  repeat' (first | rfl | dsimp only | split)

theorem unban_user_coupons (s : Store) (uid : Nat) (pn : Option String) :
    (unban_user s uid pn).2.coupons = s.coupons := by
  unfold unban_user
  repeat' (first | rfl | dsimp only | split)

theorem delete_project_coupons_sub (s : Store) (n : String) :
    ∀ x ∈ (delete_project s n).2.coupons, x ∈ s.coupons := by
  unfold delete_project
  cases getProjectByName s n with
  | none => exact fun x hx => hx
  | some p => exact fun x hx => (List.mem_filter.mp hx).1

theorem cleanup_coupons_sub (s : Store) (now : Nat) :
    ∀ x ∈ (cleanup_expired_coupons s now).2.coupons, x ∈ s.coupons := by
  intro x hx
  exact (List.mem_filter.mp hx).1

theorem add_coupons_coupons (s : Store) (now : Nat) (pn : String)
    (cs : List String) (e : Option Nat) :
    (add_coupons s now pn cs e).2.coupons = s.coupons ∨
    ∃ rows : List Coupon, (∀ r ∈ rows, s.nextCouponId ≤ r.id) ∧
      (add_coupons s now pn cs e).2.coupons = s.coupons ++ rows := by
  unfold add_coupons
  cases hp : getProjectByName s pn with
  | none => exact Or.inl rfl
  | some p =>
    dsimp only
    split
    · exact Or.inl rfl
    · refine Or.inr ⟨_, ?_, rfl⟩
      intro r hr
      simp only [List.mem_map] at hr
      obtain ⟨ic, _, rfl⟩ := hr
      exact Nat.le_add_right _ _

/-- In every branch, the eligible coupon `claim_coupon` marks was unclaimed,
and the only change to the coupon table is that one row. -/
theorem claimStock_store_cases (s : Store) (now uid : Nat) (p : Project) :
    (claimStock s now uid p).2 = s ∨
    ∃ ch ∈ s.coupons, ch.is_claimed = false ∧
      (claimStock s now uid p).2.coupons =
        s.coupons.map (fun x => if x.id = ch.id then markClaimed uid now x else x) := by
  unfold claimStock
  cases hm : selectMinExpiry (s.coupons.filter (eligB now p.id)) with
  | none => exact Or.inl rfl
  | some c =>
    obtain ⟨hmem, _⟩ := selectMinExpiry_spec hm
    obtain ⟨hcm, hce⟩ := List.mem_filter.mp hmem
    have hun : c.is_claimed = false := by
      unfold eligB at hce
      rw [Bool.and_eq_true, Bool.and_eq_true] at hce
      simpa using hce.1.2
    exact Or.inr ⟨c, hcm, hun, rfl⟩

theorem claim_coupon_store_cases (s : Store) (now uid : Nat) (pn : String) :
    (claim_coupon s now uid pn).2 = s ∨
    ∃ ch ∈ s.coupons, ch.is_claimed = false ∧
      (claim_coupon s now uid pn).2.coupons =
        s.coupons.map (fun x => if x.id = ch.id then markClaimed uid now x else x) := by
  unfold claim_coupon
  repeat' split
  all_goals first
    | exact Or.inl rfl
    | apply claimStock_store_cases

/-- C3. Claimed coupons never revert. With well-formed primary keys (distinct
coupon ids below the auto-increment counter), after any single ledger
operation every surviving row of a claimed coupon is still claimed by the
same user — no operation sets `is_claimed` back to false or reassigns
`claimed_by` (rows may only disappear, by cascade delete or cleanup).
Moreover a successful claim only ever marks a coupon that is currently
unclaimed, and changes no other coupon row. -/
theorem coupon_claimed_monotone (now : Nat) (op : Op) (s : Store)
    (hWF : (s.coupons.map Coupon.id).Nodup ∧
      ∀ c ∈ s.coupons, c.id < s.nextCouponId) :
    (∀ c ∈ s.coupons, c.is_claimed = true →
      ∀ c' ∈ (applyOp now op s).coupons, c'.id = c.id →
        c'.is_claimed = true ∧ c'.claimed_by = c.claimed_by)
    ∧ (∀ uid pname code exp s₂,
        claim_coupon s now uid pname = (.SUCCESS code exp, s₂) →
        ∃ ch ∈ s.coupons, ch.is_claimed = false ∧ ch.code = code ∧
          s₂.coupons = s.coupons.map
            (fun x => if x.id = ch.id then markClaimed uid now x else x)) := by
  obtain ⟨hnd, hlt⟩ := hWF
  have keep : ∀ {l : List Coupon}, (∀ x ∈ l, x ∈ s.coupons) →
      ∀ c ∈ s.coupons, c.is_claimed = true → ∀ c' ∈ l, c'.id = c.id →
        c'.is_claimed = true ∧ c'.claimed_by = c.claimed_by := by
    intro l hsub c hc hcl c' hc' hid
    have heq : c' = c := List.inj_on_of_nodup_map hnd (hsub c' hc') hc hid
    rw [heq]
    exact ⟨hcl, rfl⟩
  constructor
  · cases op with
    | createProject n =>
      intro c hc hcl c' hc' hid
      simp only [applyOp] at hc'
      exact keep (fun x hx => (create_project_coupons s n) ▸ hx) c hc hcl c' hc' hid
    | deleteProject n =>
      intro c hc hcl c' hc' hid
      simp only [applyOp] at hc'
      exact keep (delete_project_coupons_sub s n) c hc hcl c' hc' hid
    | setProjectSetting pn k v =>
      intro c hc hcl c' hc' hid
      simp only [applyOp] at hc'
      exact keep (fun x hx => (set_project_setting_coupons s pn k v) ▸ hx) c hc hcl c' hc' hid
    | banUser uid pn r d =>
      intro c hc hcl c' hc' hid
      simp only [applyOp] at hc'
      exact keep (fun x hx => (ban_user_coupons s now uid pn r d) ▸ hx) c hc hcl c' hc' hid
    | unbanUser uid pn =>
      intro c hc hcl c' hc' hid
      simp only [applyOp] at hc'
      exact keep (fun x hx => (unban_user_coupons s uid pn) ▸ hx) c hc hcl c' hc' hid
    | addCoupons pn cs e =>
      intro c hc hcl c' hc' hid
      simp only [applyOp] at hc'
      rcases add_coupons_coupons s now pn cs e with h | ⟨rows, hge, h⟩
      · rw [h] at hc'
        exact keep (fun x hx => hx) c hc hcl c' hc' hid
      · rw [h] at hc'
        rcases List.mem_append.mp hc' with hl | hr
        · exact keep (fun x hx => hx) c hc hcl c' hl hid
        · exfalso
          have h1 := hge c' hr
          have h2 := hlt c hc
          omega
    | claimCoupon uid pn =>
      intro c hc hcl c' hc' hid
      simp only [applyOp] at hc'
      rcases claim_coupon_store_cases s now uid pn with h | ⟨ch, hchm, hchun, h⟩
      · rw [h] at hc'
        exact keep (fun x hx => hx) c hc hcl c' hc' hid
      · rw [h] at hc'
        obtain ⟨x, hx, hfx⟩ := List.mem_map.mp hc'
        by_cases hxe : x.id = ch.id
        · exfalso
          rw [if_pos hxe] at hfx
          have hid' : x.id = c.id := by
            rw [← hid, ← hfx]
            rfl
          have hcid : c.id = ch.id := by omega
          have : c = ch := List.inj_on_of_nodup_map hnd hc hchm hcid
          rw [this, hchun] at hcl
          exact absurd hcl (by simp)
        · rw [if_neg hxe] at hfx
          subst hfx
          exact keep (fun y hy => hy) c hc hcl x hx hid
    | cleanupExpired =>
      intro c hc hcl c' hc' hid
      simp only [applyOp] at hc'
      exact keep (cleanup_coupons_sub s now) c hc hcl c' hc' hid
  · intro uid pname code exp s₂ h
    obtain ⟨p, _, ch, hmin, hcode, _, hs⟩ := claim_success_inv h
    obtain ⟨hmem, _⟩ := selectMinExpiry_spec hmin
    obtain ⟨hcm, hce⟩ := List.mem_filter.mp hmem
    have hun : ch.is_claimed = false := by
      unfold eligB at hce
      rw [Bool.and_eq_true, Bool.and_eq_true] at hce
      simpa using hce.1.2
    exact ⟨ch, hcm, hun, hcode.symm, by rw [hs]⟩

theorem coupon_claimed_monotone_witness :
    ((exHistStore.coupons.map Coupon.id).Nodup ∧
      ∀ c ∈ exHistStore.coupons, c.id < exHistStore.nextCouponId) ∧
    ((∀ c ∈ exHistStore.coupons, c.is_claimed = true →
      ∀ c' ∈ (applyOp 30 .cleanupExpired exHistStore).coupons, c'.id = c.id →
        c'.is_claimed = true ∧ c'.claimed_by = c.claimed_by)
    ∧ (∀ uid pname code exp s₂,
        claim_coupon exHistStore 30 uid pname = (.SUCCESS code exp, s₂) →
        ∃ ch ∈ exHistStore.coupons, ch.is_claimed = false ∧ ch.code = code ∧
          s₂.coupons = exHistStore.coupons.map
            (fun x => if x.id = ch.id then markClaimed uid 30 x else x))) :=
  ⟨⟨by decide, by decide⟩,
   coupon_claimed_monotone 30 .cleanupExpired exHistStore ⟨by decide, by decide⟩⟩

/-! ### C2 — exactly one winner for a single stocked coupon

Each call to `claim_coupon` runs inside `async with session.begin()` and —
per the code's own concurrency note — aiosqlite locks the whole database
file for the transaction, so any set of concurrent claims executes as some
serial order of atomic claims. `runClaims` is that serialization. -/

/-- Serialized execution of one claim per listed user, threading the store. -/
def runClaims (s : Store) (now : Nat) (pname : String) : List Nat → List ClaimTag
  | [] => []
  | u :: rest =>
    tagOf (claim_coupon s now u pname).1 ::
      runClaims (claim_coupon s now u pname).2 now pname rest

/-- A claim with no eligible coupon reports NO_STOCK and leaves the store
untouched. -/
theorem claim_no_stock {s : Store} {now uid : Nat} {pname : String} {p : Project}
    (hp : getProjectByName s pname = some p)
    (hnb : condBanned s now uid p.id = false)
    (hact : p.is_claim_active = true)
    (hnh : s.coupons.filter (historyB uid p.id) = [])
    (hzero : s.coupons.filter (eligB now p.id) = []) :
    claim_coupon s now uid pname = (.NO_STOCK, s) := by
  rw [claim_eq_claimStock hp hnb hact hnh]
  unfold claimStock
  rw [hzero]
  rfl

/-- A claim against exactly one eligible coupon succeeds, consumes the stock,
and leaves projects, bans, and every other user's (empty) claim history
unchanged. -/
theorem claim_single_stock_success {s : Store} {now uid : Nat} {pname : String}
    {p : Project} {ch : Coupon}
    (hp : getProjectByName s pname = some p)
    (hnb : condBanned s now uid p.id = false)
    (hact : p.is_claim_active = true)
    (hnh : s.coupons.filter (historyB uid p.id) = [])
    (hone : s.coupons.filter (eligB now p.id) = [ch]) :
    tagOf (claim_coupon s now uid pname).1 = .success ∧
    (claim_coupon s now uid pname).2.projects = s.projects ∧
    (claim_coupon s now uid pname).2.bans = s.bans ∧
    (claim_coupon s now uid pname).2.coupons.filter (eligB now p.id) = [] ∧
    ∀ v, v ≠ uid → (∀ x ∈ s.coupons, historyB v p.id x = false) →
      (claim_coupon s now uid pname).2.coupons.filter (historyB v p.id) = [] := by
  rw [claim_eq_claimStock hp hnb hact hnh]
  unfold claimStock
  rw [hone]
  dsimp only [selectMinExpiry]
  refine ⟨rfl, rfl, rfl, ?_, ?_⟩
  · rw [List.filter_eq_nil_iff]
    intro y hy
    obtain ⟨x, hx, rfl⟩ := List.mem_map.mp hy
    by_cases hxe : x.id = ch.id
    · rw [if_pos hxe]
      simp [markClaimed, eligB]
    · rw [if_neg hxe]
      intro hex
      have : x ∈ s.coupons.filter (eligB now p.id) := List.mem_filter.mpr ⟨hx, hex⟩
      rw [hone] at this
      have : x = ch := by simpa using this
      exact hxe (by rw [this])
  · intro v hv hvh
    rw [List.filter_eq_nil_iff]
    intro y hy
    obtain ⟨x, hx, rfl⟩ := List.mem_map.mp hy
    by_cases hxe : x.id = ch.id
    · rw [if_pos hxe]
      simp only [markClaimed, historyB]
      intro hcontra
      rw [Bool.and_eq_true] at hcontra
      have : uid = v := by simpa using hcontra.1
      exact hv this.symm
    · rw [if_neg hxe]
      intro hcontra
      rw [hvh x hx] at hcontra
      exact absurd hcontra (by simp)

/-- With no stock and clean per-user state, every serialized claim reports
NO_STOCK. -/
theorem runClaims_all_no_stock (now : Nat) (pname : String) (p : Project) :
    ∀ (users : List Nat) (s : Store),
      getProjectByName s pname = some p →
      p.is_claim_active = true →
      s.coupons.filter (eligB now p.id) = [] →
      (∀ u ∈ users, condBanned s now u p.id = false) →
      (∀ u ∈ users, s.coupons.filter (historyB u p.id) = []) →
      runClaims s now pname users = users.map (fun _ => .noStock)
  | [], _, _, _, _, _, _ => rfl
  | u :: rest, s, hp, hact, hzero, hnb, hnh => by
    have hcv := claim_no_stock hp (hnb u (List.mem_cons_self u rest)) hact
      (hnh u (List.mem_cons_self u rest)) hzero
    rw [runClaims, hcv]
    simp only [tagOf, List.map]
    congr 1
    exact runClaims_all_no_stock now pname p rest s hp hact hzero
      (fun v hv => hnb v (List.mem_cons_of_mem u hv))
      (fun v hv => hnh v (List.mem_cons_of_mem u hv))

/-- C2. With exactly one eligible coupon in the project, a pool of distinct
users none of whom is banned or has claim history, running their claims in
any serial order (which is what the per-claim transaction reduces concurrent
claims to) produces exactly one SUCCESS and N−1 NO_STOCK results: no coupon
is ever handed out twice. -/
theorem one_coupon_one_winner (s : Store) (now : Nat) (pname : String) (p : Project)
    (ch : Coupon) (users : List Nat)
    (hp : getProjectByName s pname = some p)
    (hact : p.is_claim_active = true)
    (hone : s.coupons.filter (eligB now p.id) = [ch])
    (hnb : ∀ u ∈ users, condBanned s now u p.id = false)
    (hnh : ∀ u ∈ users, ∀ x ∈ s.coupons, historyB u p.id x = false)
    (hnd : users.Nodup) (hne : users ≠ []) :
    (runClaims s now pname users).count .success = 1 ∧
    (runClaims s now pname users).count .noStock = users.length - 1 ∧
    ∀ t ∈ runClaims s now pname users, t = .success ∨ t = .noStock := by
  cases users with
  | nil => exact absurd rfl hne
  | cons u rest =>
    have humem : u ∈ u :: rest := List.mem_cons_self u rest
    have hfil : s.coupons.filter (historyB u p.id) = [] := by
      rw [List.filter_eq_nil_iff]
      intro x hx
      rw [hnh u humem x hx]
      simp
    obtain ⟨htag, hproj, hbans, hzero, hhist⟩ :=
      claim_single_stock_success hp (hnb u humem) hact hfil hone
    have hp' : getProjectByName (claim_coupon s now u pname).2 pname = some p := by
      unfold getProjectByName
      rw [hproj]
      exact hp
    have hnb' : ∀ v ∈ rest, condBanned (claim_coupon s now u pname).2 now v p.id = false := by
      intro v hv
      unfold condBanned
      rw [hbans]
      exact hnb v (List.mem_cons_of_mem u hv)
    have hrest : ∀ v ∈ rest,
        (claim_coupon s now u pname).2.coupons.filter (historyB v p.id) = [] := by
      intro v hv
      refine hhist v ?_ ?_
      · intro he
        rw [he] at hv
        exact (List.nodup_cons.mp hnd).1 hv
      · intro x hx
        exact hnh v (List.mem_cons_of_mem u hv) x hx
    have hrun : runClaims s now pname (u :: rest) =
        .success :: rest.map (fun _ => .noStock) := by
      rw [runClaims, htag,
        runClaims_all_no_stock now pname p rest (claim_coupon s now u pname).2
          hp' hact hzero hnb' hrest]
    rw [hrun]
    refine ⟨?_, ?_, ?_⟩
    · simp [List.count_cons, List.count_replicate]
    · simp [List.count_cons, List.count_replicate]
    · intro t ht
      rcases List.mem_cons.mp ht with rfl | ht
      · exact Or.inl rfl
      · obtain ⟨x, _, rfl⟩ := List.mem_map.mp ht
        exact Or.inr rfl

theorem one_coupon_one_winner_witness :
    (runClaims exStockStore 5 "p" [1, 2, 3]).count .success = 1 ∧
    (runClaims exStockStore 5 "p" [1, 2, 3]).count .noStock = ([1, 2, 3] : List Nat).length - 1 ∧
    ∀ t ∈ runClaims exStockStore 5 "p" [1, 2, 3], t = .success ∨ t = .noStock :=
  one_coupon_one_winner exStockStore 5 "p" exP
    { id := 1, code := "K", is_claimed := false, claimed_by := none,
      claimed_at := none, expiry_date := none, project_id := 1 }
    [1, 2, 3] rfl rfl rfl (by decide) (by decide) (by decide) (by decide)

end CouponBot
